import Mathlib

/-!
Shallow embedding of `slint-evdev-input` (`src/src/lib.rs`).

The crate converts linux evdev input events from a touchscreen into slint
`WindowEvent`s.  The core is the `Collector` state machine; around it sit a
blocking iterator (`SlintEventsIterator`, produced by
`SlintEventsWrapper::fetch_events`) and an async `EventStream`
(`EventStream::next_event`).

Modelling choices:
* evdev `EventSummary` is restricted to the constructors the code inspects:
  synchronization, absolute-axis (with the axis code and `i32` value), key
  (with the key code and `i32` value), and a catch-all for every other kind.
* `i32` values are modelled as `Int` (no arithmetic is performed on them, so
  no wrap-around modelling is needed).
* slint's `f32` values (the scale factor and the `LogicalPosition`
  coordinates) are modelled as rationals carrying their exact real value.
  `LogicalPosition::from_physical(p, sf)` casts each `i32` physical coordinate
  to `f32` and divides by the `f32` scale factor; both steps round.  The two
  roundings are modelled faithfully by `from_physical_coord` below:
  round-to-nearest, ties-to-even, at 24 significant bits (IEEE-754 binary32,
  with unbounded exponent: overflow to infinity and subnormal loss below
  `2^(-126)` are not modelled, as touchscreen coordinates and UI scale factors
  keep every value well inside binary32's normal range).
-/

namespace SlintEvdev

/-- evdev absolute-axis codes, restricted to the ones the code matches on. -/
inductive AbsoluteAxisCode
  | ABS_X
  | ABS_Y
  | otherAxis (code : Nat)
deriving DecidableEq

/-- evdev key codes, restricted to the one the code matches on. -/
inductive KeyCode
  | BTN_TOUCH
  | otherKey (code : Nat)
deriving DecidableEq

/-- evdev `EventSummary`, restricted to the shapes `Collector::push` matches. -/
inductive EventSummary
  | synchronization
  | absoluteAxis (code : AbsoluteAxisCode) (value : Int)
  | key (key : KeyCode) (value : Int)
  | otherEvent
deriving DecidableEq

/-- The `ButtonChange` enum of `lib.rs` (default is `None`). -/
inductive ButtonChange
  | none
  | up
  | down
deriving DecidableEq

/-- slint `PointerEventButton`; the code only ever produces `Left`. -/
inductive PointerEventButton
  | left
deriving DecidableEq

/-- The slint `WindowEvent` variants the code produces.  Positions are logical
coordinates, modelled as exact rationals. -/
inductive WindowEvent
  | pointerPressed (position : ℚ × ℚ) (button : PointerEventButton)
  | pointerReleased (position : ℚ × ℚ) (button : PointerEventButton)
  | pointerMoved (position : ℚ × ℚ)
deriving DecidableEq

/-- The `Collector` struct of `lib.rs`. -/
structure Collector where
  last_position : Int × Int
  scale_factor : ℚ
  button_change : ButtonChange
deriving DecidableEq

/-- `Collector::new(scale_factor, last_position)`. -/
def Collector.new (scale_factor : ℚ) (last_position : Int × Int) : Collector :=
  { last_position := last_position
    scale_factor := scale_factor
    button_change := ButtonChange.none }

/-- Binade normalization for binary32 rounding: repeatedly rescale the
fraction `n/d` (tracking the exponent `e`, so that `(n/d) * 2^e` is invariant)
until `2^23 ≤ n/d < 2^24`.  Structural recursion on a fuel argument; callers
pass more fuel than the number of doublings ever needed. -/
def normLoop : Nat → Nat → Nat → Int → Nat × Nat × Int
  | 0, n, d, e => (n, d, e)
  | fuel + 1, n, d, e =>
    if n < 8388608 * d then normLoop fuel (2 * n) d (e - 1)
    else if 16777216 * d ≤ n then normLoop fuel n (2 * d) (e + 1)
    else (n, d, e)

/-- Round the non-negative fraction `a/b` to 24 significant bits
(round-to-nearest, ties-to-even): returns a significand–exponent pair `(m, e)`
whose value is `m * 2^e` with `2^23 ≤ m < 2^24`, or `(0, 0)` for zero. -/
def round24Core (a b : Nat) : Int × Int :=
  if a = 0 ∨ b = 0 then (0, 0)
  else
    let s := normLoop (a + b + 64) a b 0
    let n := s.1
    let d := s.2.1
    let e := s.2.2
    let q := n / d
    let r := n % d
    let m := if 2 * r < d then q
             else if d < 2 * r then q + 1
             else if q % 2 = 0 then q else q + 1
    if m = 16777216 then ((8388608 : Int), e + 1) else ((m : Int), e)

/-- Signed version of `round24Core` on the fraction `n/d`. -/
def round24CoreInt (n d : Int) : Int × Int :=
  if (0 ≤ n) = (0 ≤ d) then round24Core n.natAbs d.natAbs
  else (-(round24Core n.natAbs d.natAbs).1, (round24Core n.natAbs d.natAbs).2)

/-- The exact rational value of a significand–exponent pair. -/
def q24 : Int × Int → ℚ
  | (m, e) => if 0 ≤ e then (m : ℚ) * 2 ^ e.toNat else (m : ℚ) / 2 ^ (-e).toNat

/-- One coordinate of slint's `LogicalPosition::from_physical`, as a
significand–exponent pair: the `i32` physical coordinate `x` is cast to `f32`
(one binary32 rounding), then divided by the `f32` scale factor `sn/sd` (IEEE
division: a second binary32 rounding of the exact quotient). -/
def from_physical_core (x : Int) (sn : Int) (sd : Nat) : Int × Int :=
  let c := round24Core x.natAbs 1
  let mx : Int := if 0 ≤ x then c.1 else -c.1
  round24CoreInt (mx * (sd : Int) * 2 ^ c.2.toNat) (sn * 2 ^ (-c.2).toNat)

/-- One coordinate of slint's `LogicalPosition::from_physical`, as its exact
rational value: `f32`-cast then `f32`-divide, each correctly rounded to
binary32 (normal range; see the module comment). -/
def from_physical_coord (x : Int) (s : ℚ) : ℚ :=
  q24 (from_physical_core x s.num s.den)

/-- `Collector::last_logical_position`:
`LogicalPosition::from_physical(PhysicalPosition::new(x, y), scale_factor)`,
i.e. each physical coordinate cast to `f32` and divided by the `f32` scale
factor, both steps correctly rounded to binary32. -/
def Collector.last_logical_position (c : Collector) : ℚ × ℚ :=
  (from_physical_coord c.last_position.1 c.scale_factor,
   from_physical_coord c.last_position.2 c.scale_factor)

/-- `Collector::push`.  Rust mutates `self` and returns `Option<WindowEvent>`;
here the new collector state is returned alongside the optional event. -/
def Collector.push (c : Collector) (event : EventSummary) : Option WindowEvent × Collector :=
  match event with
  | EventSummary.synchronization =>
    let button_change := c.button_change
    let c' : Collector := { c with button_change := ButtonChange.none }
    if button_change = ButtonChange.down then
      (some (WindowEvent.pointerPressed c'.last_logical_position PointerEventButton.left), c')
    else if button_change = ButtonChange.up then
      (some (WindowEvent.pointerReleased c'.last_logical_position PointerEventButton.left), c')
    else
      (some (WindowEvent.pointerMoved c'.last_logical_position), c')
  | EventSummary.absoluteAxis code value =>
    match code with
    | AbsoluteAxisCode.ABS_X => (none, { c with last_position := (value, c.last_position.2) })
    | AbsoluteAxisCode.ABS_Y => (none, { c with last_position := (c.last_position.1, value) })
    | AbsoluteAxisCode.otherAxis _ => (none, c)
  | EventSummary.key k value =>
    if k = KeyCode.BTN_TOUCH then
      if value = 1 then (none, { c with button_change := ButtonChange.down })
      else (none, { c with button_change := ButtonChange.up })
    else (none, c)
  | EventSummary.otherEvent => (none, c)

/-- Feed a whole list of raw events through the collector in order, gathering
every emitted semantic event and the final collector state. -/
def Collector.pushAll (c : Collector) (events : List EventSummary) :
    List WindowEvent × Collector :=
  match events with
  | [] => ([], c)
  | e :: rest =>
    let step := c.push e
    let tail := step.2.pushAll rest
    (step.1.toList ++ tail.1, tail.2)

/-- Is the event a synchronization marker? -/
def EventSummary.isSync : EventSummary → Bool
  | EventSummary.synchronization => true
  | _ => false

/-- Is the event a key event (of any key code)? -/
def EventSummary.isKey : EventSummary → Bool
  | EventSummary.key _ _ => true
  | _ => false

/-- Is the event an absolute-axis event for `ABS_X` or `ABS_Y` (the only raw
events that modify the stored position)? -/
def EventSummary.isPositionAxis : EventSummary → Bool
  | EventSummary.absoluteAxis AbsoluteAxisCode.ABS_X _ => true
  | EventSummary.absoluteAxis AbsoluteAxisCode.ABS_Y _ => true
  | _ => false

/-- The logical position carried by a semantic event. -/
def eventPosition : WindowEvent → ℚ × ℚ
  | WindowEvent.pointerPressed p _ => p
  | WindowEvent.pointerReleased p _ => p
  | WindowEvent.pointerMoved p => p

/-- The shared drain loop of `SlintEventsIterator::next` and (on an error-free
source) `EventStream::next_event`: repeatedly take the next raw event from the
source and feed it to the collector, returning the first semantic event
together with the collector state and the unconsumed remainder of the source;
`none` when the source is exhausted before a semantic event is produced. -/
def SlintEventsIterator.next (c : Collector) :
    List EventSummary → Option (WindowEvent × Collector × List EventSummary)
  | [] => Option.none
  | e :: rest =>
    match c.push e with
    | (some w, c') => some (w, c', rest)
    | (none, c') => SlintEventsIterator.next c' rest

/-- A modelled I/O error (the payload of `std::io::Error` is irrelevant to the
control flow; only its identity matters). -/
structure IoError where
  code : Nat
deriving DecidableEq

/-- Outcome of one `EventStream::next_event` call on a source that can fail:
either a semantic event (with the continuation state), a propagated I/O error,
or `pending` when the modelled finite source is exhausted (the real stream
would suspend). -/
inductive AsyncFetchResult
  | ok (w : WindowEvent) (c : Collector) (rest : List (Except IoError EventSummary))
  | err (e : IoError)
  | pending

/-- `EventStream::next_event`: loop fetching the next raw event from the evdev
stream; `self.evdev_stream.next_event().await?` propagates a fetch error as the
call's own error result; otherwise the event is pushed into the collector and
the loop continues until a semantic event appears. -/
def EventStream.next_event (c : Collector) :
    List (Except IoError EventSummary) → AsyncFetchResult
  | [] => AsyncFetchResult.pending
  | Except.error e :: _ => AsyncFetchResult.err e
  | Except.ok ev :: rest =>
    match c.push ev with
    | (some w, c') => AsyncFetchResult.ok w c' rest
    | (none, c') => EventStream.next_event c' rest

/-- Outcome of `SlintEventsWrapper::fetch_events`: either an iterator (a fresh
collector plus the fetched raw events) or a panic.  The Rust signature returns
`SlintEventsIterator` with no error channel; a fetch failure hits the
`.unwrap()` and aborts instead of returning an error value. -/
inductive SyncFetchResult
  | ok (collector : Collector) (events : List EventSummary)
  | panicked (e : IoError)
deriving DecidableEq

/-- Did the synchronous fetch abort with a panic? -/
def SyncFetchResult.isPanicked : SyncFetchResult → Bool
  | SyncFetchResult.panicked _ => true
  | _ => false

/-- `SlintEventsWrapper::fetch_events`:
`SlintEventsIterator { inner: self.device.fetch_events().unwrap(), collector:
Collector::new(self.scale_factor, self.last_position) }`.  The underlying
`fetch_events` result is modelled as `Except`; on `error` the `.unwrap()`
panics. -/
def SlintEventsWrapper.fetch_events (scale_factor : ℚ) (last_position : Int × Int)
    (raw : Except IoError (List EventSummary)) : SyncFetchResult :=
  match raw with
  | Except.error e => SyncFetchResult.panicked e
  | Except.ok evs => SyncFetchResult.ok (Collector.new scale_factor last_position) evs

/-! ### Small-step lemmas about `Collector.push` -/

theorem push_abs_x (c : Collector) (v : Int) :
    c.push (EventSummary.absoluteAxis AbsoluteAxisCode.ABS_X v)
      = (Option.none, { c with last_position := (v, c.last_position.2) }) := rfl

theorem push_abs_y (c : Collector) (v : Int) :
    c.push (EventSummary.absoluteAxis AbsoluteAxisCode.ABS_Y v)
      = (Option.none, { c with last_position := (c.last_position.1, v) }) := rfl

theorem push_abs_other (c : Collector) (n : Nat) (v : Int) :
    c.push (EventSummary.absoluteAxis (AbsoluteAxisCode.otherAxis n) v) = (Option.none, c) := rfl

theorem push_other (c : Collector) :
    c.push EventSummary.otherEvent = (Option.none, c) := rfl

theorem push_key_touch (c : Collector) (v : Int) :
    c.push (EventSummary.key KeyCode.BTN_TOUCH v)
      = (Option.none,
         { c with button_change := if v = 1 then ButtonChange.down else ButtonChange.up }) := by
  by_cases hv : v = 1 <;> simp [Collector.push, hv]

theorem push_key_other (c : Collector) (k : KeyCode) (v : Int) (hk : k ≠ KeyCode.BTN_TOUCH) :
    c.push (EventSummary.key k v) = (Option.none, c) := by
  simp [Collector.push, hk]

theorem push_sync_fst (c : Collector) :
    (c.push EventSummary.synchronization).1 =
      some (if c.button_change = ButtonChange.down then
              WindowEvent.pointerPressed c.last_logical_position PointerEventButton.left
            else if c.button_change = ButtonChange.up then
              WindowEvent.pointerReleased c.last_logical_position PointerEventButton.left
            else
              WindowEvent.pointerMoved c.last_logical_position) := by
  cases hb : c.button_change <;> simp [Collector.push, hb, Collector.last_logical_position]

theorem push_sync_snd (c : Collector) :
    (c.push EventSummary.synchronization).2 = { c with button_change := ButtonChange.none } := by
  cases hb : c.button_change <;> simp [Collector.push, hb]

theorem push_fst_eq_none (c : Collector) (e : EventSummary) (hs : e.isSync = false) :
    (c.push e).1 = Option.none := by
  cases e with
  | synchronization => simp [EventSummary.isSync] at hs
  | absoluteAxis code v => cases code <;> rfl
  | key k v =>
    by_cases hk : k = KeyCode.BTN_TOUCH
    · subst hk
      rw [push_key_touch]
    · rw [push_key_other c k v hk]
  | otherEvent => rfl

theorem push_scale (c : Collector) (e : EventSummary) :
    (c.push e).2.scale_factor = c.scale_factor := by
  cases e with
  | synchronization => rw [push_sync_snd]
  | absoluteAxis code v => cases code <;> rfl
  | key k v =>
    by_cases hk : k = KeyCode.BTN_TOUCH
    · subst hk
      rw [push_key_touch]
    · rw [push_key_other c k v hk]
  | otherEvent => rfl

theorem push_position_of_not_axis (c : Collector) (e : EventSummary)
    (h : e.isPositionAxis = false) :
    (c.push e).2.last_position = c.last_position := by
  cases e with
  | synchronization => rw [push_sync_snd]
  | absoluteAxis code v =>
    cases code with
    | ABS_X => simp [EventSummary.isPositionAxis] at h
    | ABS_Y => simp [EventSummary.isPositionAxis] at h
    | otherAxis n => rfl
  | key k v =>
    by_cases hk : k = KeyCode.BTN_TOUCH
    · subst hk
      rw [push_key_touch]
    · rw [push_key_other c k v hk]
  | otherEvent => rfl

theorem push_nks (c : Collector) (b : ButtonChange) (e : EventSummary)
    (hk : e.isKey = false) (hs : e.isSync = false) :
    ({ c with button_change := b } : Collector).push e
      = (Option.none, { (c.push e).2 with button_change := b }) := by
  cases e with
  | synchronization => simp [EventSummary.isSync] at hs
  | key k v => simp [EventSummary.isKey] at hk
  | absoluteAxis code v => cases code <;> rfl
  | otherEvent => rfl

/-! ### Lemmas about `Collector.pushAll` -/

theorem pushAll_nil (c : Collector) : c.pushAll [] = ([], c) := rfl

theorem pushAll_cons (c : Collector) (e : EventSummary) (l : List EventSummary) :
    c.pushAll (e :: l)
      = ((c.push e).1.toList ++ ((c.push e).2.pushAll l).1, ((c.push e).2.pushAll l).2) := rfl

theorem pushAll_append (l₁ l₂ : List EventSummary) : ∀ c : Collector,
    c.pushAll (l₁ ++ l₂)
      = ((c.pushAll l₁).1 ++ ((c.pushAll l₁).2.pushAll l₂).1, ((c.pushAll l₁).2.pushAll l₂).2) := by
  induction l₁ with
  | nil => intro c; simp [pushAll_nil]
  | cons e t ih =>
    intro c
    simp [pushAll_cons, ih, List.append_assoc]

theorem pushAll_nks (b : ButtonChange) (l : List EventSummary) : ∀ c : Collector,
    (∀ e ∈ l, e.isKey = false ∧ e.isSync = false) →
    ({ c with button_change := b } : Collector).pushAll l
      = ([], { (c.pushAll l).2 with button_change := b }) := by
  induction l with
  | nil => intro c _; rfl
  | cons e t ih =>
    intro c h
    have he := h e (List.mem_cons_self e t)
    have ht : ∀ x ∈ t, x.isKey = false ∧ x.isSync = false :=
      fun x hx => h x (List.mem_cons_of_mem e hx)
    rw [pushAll_cons, push_nks c b e he.1 he.2, pushAll_cons, push_fst_eq_none c e he.2,
      ih (c.push e).2 ht]
    simp

theorem pushAll_button_of_nks (l : List EventSummary) (c : Collector)
    (h : ∀ e ∈ l, e.isKey = false ∧ e.isSync = false) :
    (c.pushAll l).2.button_change = c.button_change := by
  have heta : ({ c with button_change := c.button_change } : Collector) = c := rfl
  have h' := pushAll_nks c.button_change l c h
  rw [heta] at h'
  rw [h']

theorem pushAll_position_of_not_axis (l : List EventSummary) : ∀ c : Collector,
    (∀ e ∈ l, e.isPositionAxis = false) →
    (c.pushAll l).2.last_position = c.last_position := by
  induction l with
  | nil => intro c _; rfl
  | cons e t ih =>
    intro c h
    rw [pushAll_cons]
    have := ih (c.push e).2 (fun x hx => h x (List.mem_cons_of_mem e hx))
    rw [this, push_position_of_not_axis c e (h e (List.mem_cons_self e t))]

theorem isSync_false_of_ne (e : EventSummary) (h : e ≠ EventSummary.synchronization) :
    e.isSync = false := by
  cases e <;> first | exact absurd rfl h | rfl

theorem from_physical_coord_zero (s : ℚ) : from_physical_coord 0 s = 0 := by
  simp [from_physical_coord, from_physical_core, round24CoreInt, round24Core, q24]

theorem push_button_none (c : Collector) (e : EventSummary)
    (hb : c.button_change = ButtonChange.none) (hk : e.isKey = false) :
    (c.push e).2.button_change = ButtonChange.none := by
  cases e with
  | synchronization => rw [push_sync_snd]
  | key k v => simp [EventSummary.isKey] at hk
  | absoluteAxis code v => cases code <;> exact hb
  | otherEvent => exact hb

theorem pushAll_button_none (l : List EventSummary) : ∀ c : Collector,
    c.button_change = ButtonChange.none → (∀ e ∈ l, e.isKey = false) →
    (c.pushAll l).2.button_change = ButtonChange.none := by
  induction l with
  | nil => intro c hb _; exact hb
  | cons e t ih =>
    intro c hb h
    rw [pushAll_cons]
    exact ih (c.push e).2 (push_button_none c e hb (h e (List.mem_cons_self e t)))
      (fun x hx => h x (List.mem_cons_of_mem e hx))

/-! ### Claim theorems -/

/-- C1: `Collector::push` returns a semantic pointer event exactly when the
input is a Synchronization event and returns no event on every other input;
hence over any sequence of raw events the number of semantic events produced
equals the number of synchronization markers, with no suppressed case. -/
theorem c1_one_event_per_sync :
    (∀ (c : Collector) (e : EventSummary),
      ((c.push e).1.isSome = true ↔ e = EventSummary.synchronization)) ∧
    (∀ (c : Collector) (l : List EventSummary),
      (c.pushAll l).1.length = l.countP (fun e => e.isSync)) := by
  have hev : ∀ (c : Collector) (e : EventSummary),
      ((c.push e).1.isSome = true ↔ e = EventSummary.synchronization) := by
    intro c e
    constructor
    · intro h
      by_contra hne
      rw [push_fst_eq_none c e (isSync_false_of_ne e hne)] at h
      simp at h
    · intro h
      subst h
      rw [push_sync_fst]
      rfl
  refine ⟨hev, ?_⟩
  intro c l
  induction l generalizing c with
  | nil => rfl
  | cons e t ih =>
    rw [pushAll_cons, List.countP_cons]
    by_cases hs : e = EventSummary.synchronization
    · subst hs
      rw [push_sync_fst]
      simp [EventSummary.isSync, ih]
    · rw [push_fst_eq_none c e (isSync_false_of_ne e hs)]
      simp [isSync_false_of_ne e hs, ih]

/-- C2: on a Synchronization input the emitted event is determined by the
recorded button transition in priority order — `Down` yields `PointerPressed`,
`Up` yields `PointerReleased`, `None` yields `PointerMoved` — always at the
current logical position, even when the position is unchanged since the prior
boundary. -/
theorem c2_sync_resolution (c : Collector) :
    (c.button_change = ButtonChange.down →
      (c.push EventSummary.synchronization).1
        = some (WindowEvent.pointerPressed c.last_logical_position PointerEventButton.left)) ∧
    (c.button_change = ButtonChange.up →
      (c.push EventSummary.synchronization).1
        = some (WindowEvent.pointerReleased c.last_logical_position PointerEventButton.left)) ∧
    (c.button_change = ButtonChange.none →
      (c.push EventSummary.synchronization).1
        = some (WindowEvent.pointerMoved c.last_logical_position)) := by
  refine ⟨?_, ?_, ?_⟩ <;> intro hb <;> rw [push_sync_fst, hb] <;> simp

/-- Witness for C2: the three transition states at a concrete collector. -/
theorem c2_sync_resolution_witness :
    ((Collector.mk (3, 4) 1 ButtonChange.down).push EventSummary.synchronization).1
      = some (WindowEvent.pointerPressed
          (Collector.mk (3, 4) 1 ButtonChange.down).last_logical_position
          PointerEventButton.left) ∧
    ((Collector.mk (3, 4) 1 ButtonChange.up).push EventSummary.synchronization).1
      = some (WindowEvent.pointerReleased
          (Collector.mk (3, 4) 1 ButtonChange.up).last_logical_position
          PointerEventButton.left) ∧
    ((Collector.mk (3, 4) 1 ButtonChange.none).push EventSummary.synchronization).1
      = some (WindowEvent.pointerMoved
          (Collector.mk (3, 4) 1 ButtonChange.none).last_logical_position) :=
  ⟨(c2_sync_resolution _).1 rfl, (c2_sync_resolution _).2.1 rfl, (c2_sync_resolution _).2.2 rfl⟩

/-- C4: the recorded button transition is a single tri-state value, and the
last `BTN_TOUCH` key event observed wins: after arbitrary earlier events, a
`BTN_TOUCH` key event with value `v`, and then any further non-key non-sync
events, the recorded transition is `Down` iff `v = 1` and `Up` otherwise —
earlier transitions in the interval are overwritten, not queued. -/
theorem c4_last_write_wins (c : Collector) (l mid : List EventSummary) (v : Int)
    (hmid : ∀ e ∈ mid, e.isKey = false ∧ e.isSync = false) :
    ((c.pushAll (l ++ EventSummary.key KeyCode.BTN_TOUCH v :: mid)).2).button_change
      = if v = 1 then ButtonChange.down else ButtonChange.up := by
  rw [pushAll_append]
  simp only [pushAll_cons, push_key_touch]
  rw [pushAll_button_of_nks mid _ hmid]

/-- Witness for C4: a `BTN_TOUCH` release then press before any sync records
`Down` — the earlier `Up` transition is overwritten. -/
theorem c4_last_write_wins_witness :
    (((Collector.new 1 (0, 0)).pushAll
        [EventSummary.key KeyCode.BTN_TOUCH 0,
         EventSummary.key KeyCode.BTN_TOUCH 1]).2).button_change = ButtonChange.down := by
  have h := c4_last_write_wins (Collector.new 1 (0, 0))
    [EventSummary.key KeyCode.BTN_TOUCH 0] [] 1 (by simp)
  simpa using h

/-- C6: resolving any synchronization marker unconditionally resets the button
transition to `None`; consequently a later synchronization marker with no
intervening key event always yields `PointerMoved` (at the then-current logical
position). -/
theorem c6_transition_reset (c : Collector) (mid : List EventSummary)
    (hmid : ∀ e ∈ mid, e.isKey = false) :
    ((c.push EventSummary.synchronization).2.button_change = ButtonChange.none) ∧
    ((((c.push EventSummary.synchronization).2.pushAll mid).2.push
        EventSummary.synchronization).1
      = some (WindowEvent.pointerMoved
          (((c.push EventSummary.synchronization).2.pushAll mid).2.last_logical_position))) := by
  have h1 : (c.push EventSummary.synchronization).2.button_change = ButtonChange.none := by
    rw [push_sync_snd]
  refine ⟨h1, ?_⟩
  have h2 : (((c.push EventSummary.synchronization).2.pushAll mid).2).button_change
      = ButtonChange.none :=
    pushAll_button_none mid _ h1 hmid
  rw [push_sync_fst, h2]
  simp

/-- Witness for C6: a collector with a pending `Down`, a sync, then an axis
update and even another sync in between — the following sync still yields
`PointerMoved`. -/
theorem c6_transition_reset_witness :
    (((Collector.mk (0, 0) 1 ButtonChange.down).push
        EventSummary.synchronization).2.button_change = ButtonChange.none) ∧
    ((((Collector.mk (0, 0) 1 ButtonChange.down).push
          EventSummary.synchronization).2.pushAll
        [EventSummary.absoluteAxis AbsoluteAxisCode.ABS_X 5,
         EventSummary.synchronization]).2.push EventSummary.synchronization).1
      = some (WindowEvent.pointerMoved
          (((Collector.mk (0, 0) 1 ButtonChange.down).push
              EventSummary.synchronization).2.pushAll
            [EventSummary.absoluteAxis AbsoluteAxisCode.ABS_X 5,
             EventSummary.synchronization]).2.last_logical_position) :=
  c6_transition_reset (Collector.mk (0, 0) 1 ButtonChange.down)
    [EventSummary.absoluteAxis AbsoluteAxisCode.ABS_X 5, EventSummary.synchronization]
    (by decide)

/-- C7: an `ABS_X` update changes only the x coordinate, an `ABS_Y` update only
the y coordinate, and any list of events containing no `ABS_X`/`ABS_Y` update
(synchronization markers, key events, other events, other axes) leaves the
stored position unchanged — each coordinate holds the most recent value seen
for its axis across any number of synchronization markers. -/
theorem c7_axis_independence (c : Collector) (v : Int) (l : List EventSummary)
    (hl : ∀ e ∈ l, e.isPositionAxis = false) :
    ((c.push (EventSummary.absoluteAxis AbsoluteAxisCode.ABS_X v)).2.last_position
        = (v, c.last_position.2)) ∧
    ((c.push (EventSummary.absoluteAxis AbsoluteAxisCode.ABS_Y v)).2.last_position
        = (c.last_position.1, v)) ∧
    ((c.pushAll l).2.last_position = c.last_position) :=
  ⟨rfl, rfl, pushAll_position_of_not_axis l c hl⟩

/-- Witness for C7: updating x alone keeps y, and a sync/key/other-axis list
keeps the position of a concrete collector. -/
theorem c7_axis_independence_witness :
    (((Collector.mk (1, 2) 1 ButtonChange.none).push
        (EventSummary.absoluteAxis AbsoluteAxisCode.ABS_X 9)).2.last_position = (9, 2)) ∧
    (((Collector.mk (1, 2) 1 ButtonChange.none).push
        (EventSummary.absoluteAxis AbsoluteAxisCode.ABS_Y 9)).2.last_position = (1, 9)) ∧
    (((Collector.mk (1, 2) 1 ButtonChange.none).pushAll
        [EventSummary.synchronization,
         EventSummary.key KeyCode.BTN_TOUCH 1,
         EventSummary.absoluteAxis (AbsoluteAxisCode.otherAxis 24) 77,
         EventSummary.otherEvent,
         EventSummary.synchronization]).2.last_position = (1, 2)) :=
  c7_axis_independence (Collector.mk (1, 2) 1 ButtonChange.none) 9
    [EventSummary.synchronization,
     EventSummary.key KeyCode.BTN_TOUCH 1,
     EventSummary.absoluteAxis (AbsoluteAxisCode.otherAxis 24) 77,
     EventSummary.otherEvent,
     EventSummary.synchronization]
    (by decide)

/-- C10: for `BTN_TOUCH` key events only the exact value 1 records `Down`;
every other value (including 0 and the key-repeat value 2) records `Up`; the
event emits nothing and leaves position and scale unchanged; key events for any
other key leave the collector completely unchanged. -/
theorem c10_key_handling (c : Collector) (v : Int) (k : KeyCode) :
    ((c.push (EventSummary.key KeyCode.BTN_TOUCH v)).2.button_change
        = if v = 1 then ButtonChange.down else ButtonChange.up) ∧
    ((c.push (EventSummary.key KeyCode.BTN_TOUCH v)).1 = Option.none) ∧
    ((c.push (EventSummary.key KeyCode.BTN_TOUCH v)).2.last_position = c.last_position) ∧
    ((c.push (EventSummary.key KeyCode.BTN_TOUCH v)).2.scale_factor = c.scale_factor) ∧
    (k ≠ KeyCode.BTN_TOUCH → c.push (EventSummary.key k v) = (Option.none, c)) := by
  refine ⟨?_, ?_, ?_, ?_, fun hk => push_key_other c k v hk⟩ <;> rw [push_key_touch]

/-- Witness for C10: value 2 (key repeat) records `Up`, and a key event for a
different key code leaves the collector unchanged. -/
theorem c10_key_handling_witness :
    (((Collector.new 1 (0, 0)).push (EventSummary.key KeyCode.BTN_TOUCH 2)).2.button_change
      = ButtonChange.up) ∧
    ((Collector.new 1 (0, 0)).push (EventSummary.key (KeyCode.otherKey 331) 1)
      = (Option.none, Collector.new 1 (0, 0))) := by
  constructor
  · have h := (c10_key_handling (Collector.new 1 (0, 0)) 2 (KeyCode.otherKey 331)).1
    rw [if_neg (by decide)] at h
    exact h
  · exact (c10_key_handling (Collector.new 1 (0, 0)) 1 (KeyCode.otherKey 331)).2.2.2.2 (by decide)

/-- C3 counterexample: pushing a `BTN_TOUCH` press, then a release, then a
synchronization marker produces `PointerReleased`, not `PointerPressed` — the
later `Up` overwrites the recorded `Down`, so it is the press, not the release,
that is discarded for the cycle. -/
theorem c3_counterexample :
    ((Collector.new 1 (0, 0)).pushAll
        [EventSummary.key KeyCode.BTN_TOUCH 1,
         EventSummary.key KeyCode.BTN_TOUCH 0,
         EventSummary.synchronization]).1
      = [WindowEvent.pointerReleased (0, 0) PointerEventButton.left] ∧
    ((Collector.new 1 (0, 0)).pushAll
        [EventSummary.key KeyCode.BTN_TOUCH 1,
         EventSummary.key KeyCode.BTN_TOUCH 0,
         EventSummary.synchronization]).1
      ≠ [WindowEvent.pointerPressed (0, 0) PointerEventButton.left] := by
  have h : ((Collector.new 1 (0, 0)).pushAll
      [EventSummary.key KeyCode.BTN_TOUCH 1,
       EventSummary.key KeyCode.BTN_TOUCH 0,
       EventSummary.synchronization]).1
      = [WindowEvent.pointerReleased (0, 0) PointerEventButton.left] := by
    simp [pushAll_cons, pushAll_nil, push_key_touch, push_sync_fst, Collector.new,
      Collector.last_logical_position, from_physical_coord_zero]
  refine ⟨h, ?_⟩
  rw [h]
  simp

/-- C3 amended: for any cycle in which a `BTN_TOUCH` press is pushed and then a
release is pushed before the next synchronization marker (with any intervening
non-key, non-sync events such as axis updates), the synchronization marker
produces `PointerReleased` at the current logical position: the recorded
transition is last-write-wins, so the earlier `Down` — not the `Up` — is
discarded for that cycle. -/
theorem c3_down_then_up (c : Collector) (mid₁ mid₂ : List EventSummary)
    (h : ∀ e ∈ mid₁ ++ mid₂, e.isKey = false ∧ e.isSync = false) :
    (c.pushAll (EventSummary.key KeyCode.BTN_TOUCH 1
        :: mid₁ ++ EventSummary.key KeyCode.BTN_TOUCH 0 :: mid₂
        ++ [EventSummary.synchronization])).1
      = [WindowEvent.pointerReleased
          ((c.pushAll (mid₁ ++ mid₂)).2.last_logical_position) PointerEventButton.left] := by
  have h₁ : ∀ e ∈ mid₁, e.isKey = false ∧ e.isSync = false :=
    fun e he => h e (List.mem_append_left _ he)
  have h₂ : ∀ e ∈ mid₂, e.isKey = false ∧ e.isSync = false :=
    fun e he => h e (List.mem_append_right _ he)
  have e₁ := pushAll_nks ButtonChange.down mid₁ c h₁
  have e₂ := pushAll_nks ButtonChange.up mid₂ (c.pushAll mid₁).2 h₂
  simp only [pushAll_append, pushAll_cons, pushAll_nil, push_key_touch, push_sync_fst]
  norm_num [e₁, e₂, Collector.last_logical_position]
  exact fun hc => ButtonChange.noConfusion hc

/-- Witness for C3 amended: a concrete press, axis update, release, sync. -/
theorem c3_down_then_up_witness :
    ((Collector.new 1 (0, 0)).pushAll
        [EventSummary.key KeyCode.BTN_TOUCH 1,
         EventSummary.absoluteAxis AbsoluteAxisCode.ABS_X 7,
         EventSummary.key KeyCode.BTN_TOUCH 0,
         EventSummary.synchronization]).1
      = [WindowEvent.pointerReleased
          (((Collector.new 1 (0, 0)).pushAll
              [EventSummary.absoluteAxis AbsoluteAxisCode.ABS_X 7]).2.last_logical_position)
          PointerEventButton.left] :=
  c3_down_then_up (Collector.new 1 (0, 0))
    [EventSummary.absoluteAxis AbsoluteAxisCode.ABS_X 7] [] (by decide)

/-- C5: the drain loop shared by `SlintEventsIterator::next` and
`EventStream::next_event` threads one collector across successive calls: a call
that returns a semantic event also returns the collector state and the
unconsumed raw events, and continuing from exactly that state reproduces the
single-collector fold of the whole raw sequence — the position and pending
transition left by one call are the starting state of the next, with nothing
reset in between; a call returning no event means the sequence produced none. -/
theorem c5_state_persistence (c c' : Collector) (l rest : List EventSummary) (w : WindowEvent) :
    (SlintEventsIterator.next c l = some (w, c', rest) →
      (c.pushAll l).1 = w :: (c'.pushAll rest).1 ∧ (c.pushAll l).2 = (c'.pushAll rest).2) ∧
    (SlintEventsIterator.next c l = Option.none → (c.pushAll l).1 = []) := by
  induction l generalizing c with
  | nil =>
    refine ⟨fun h => ?_, fun _ => rfl⟩
    exact Option.noConfusion h
  | cons e t ih =>
    rcases hp : c.push e with ⟨o, c₂⟩
    cases o with
    | some w₀ =>
      have hn : SlintEventsIterator.next c (e :: t) = some (w₀, c₂, t) := by
        simp [SlintEventsIterator.next, hp]
      constructor
      · intro h
        rw [hn] at h
        simp only [Option.some.injEq, Prod.mk.injEq] at h
        obtain ⟨hw, hc, ht⟩ := h
        subst hw; subst hc; subst ht
        rw [pushAll_cons, hp]
        exact ⟨rfl, rfl⟩
      · intro h
        rw [hn] at h
        exact Option.noConfusion h
    | none =>
      have hn : SlintEventsIterator.next c (e :: t) = SlintEventsIterator.next c₂ t := by
        simp [SlintEventsIterator.next, hp]
      constructor
      · intro h
        rw [hn] at h
        have hih := (ih c₂).1 h
        rw [pushAll_cons, hp]
        simpa using hih
      · intro h
        rw [hn] at h
        have hih := (ih c₂).2 h
        rw [pushAll_cons, hp]
        simpa using hih

/-- Witness for C5: a first call consumes an axis update and a sync, returns
`PointerMoved` with the continuation state `(3,0)`, and continuing from that
state equals the fold of the whole sequence. -/
theorem c5_state_persistence_witness :
    ((Collector.new 1 (0, 0)).pushAll
        [EventSummary.absoluteAxis AbsoluteAxisCode.ABS_X 3, EventSummary.synchronization]).1
      = WindowEvent.pointerMoved ((Collector.mk (3, 0) 1 ButtonChange.none).last_logical_position)
          :: ((Collector.mk (3, 0) 1 ButtonChange.none).pushAll []).1 ∧
    ((Collector.new 1 (0, 0)).pushAll
        [EventSummary.absoluteAxis AbsoluteAxisCode.ABS_X 3, EventSummary.synchronization]).2
      = ((Collector.mk (3, 0) 1 ButtonChange.none).pushAll []).2 :=
  (c5_state_persistence (Collector.new 1 (0, 0)) (Collector.mk (3, 0) 1 ButtonChange.none)
    [EventSummary.absoluteAxis AbsoluteAxisCode.ABS_X 3, EventSummary.synchronization] []
    (WindowEvent.pointerMoved
      ((Collector.mk (3, 0) 1 ButtonChange.none).last_logical_position))).1 rfl

/-- C8 counterexample: with scale factor 3 and stored position (1, 1), the
synchronization marker emits `11184811/2^25` — the binary32 rounding of `1/3`
— as each logical coordinate, not `1/3` itself: the logical position of an
emitted event is not, in general, exactly the physical position divided by the
scale factor, because the i32→f32 cast and the f32 division both round. -/
theorem c8_counterexample :
    ((Collector.mk (1, 1) 3 ButtonChange.none).push EventSummary.synchronization).1
      = some (WindowEvent.pointerMoved
          ((11184811 : ℚ) / 33554432, (11184811 : ℚ) / 33554432)) ∧
    (11184811 : ℚ) / 33554432 ≠ (1 : ℚ) / 3 := by
  constructor
  · have hv : from_physical_coord 1 3 = (11184811 : ℚ) / 33554432 := by
      show q24 (from_physical_core 1 (3 : ℚ).num (3 : ℚ).den) = (11184811 : ℚ) / 33554432
      rw [show ((3 : ℚ).num) = 3 from by norm_num, show ((3 : ℚ).den) = 1 from by norm_num,
        show from_physical_core 1 3 1 = (11184811, -25) from by decide]
      simp [q24]
      norm_num
    rw [push_sync_fst]
    simp [Collector.last_logical_position, hv]
  · norm_num

/-- C8 amended: for every emitted semantic event the logical position is
obtained from the stored physical position by slint's binary32 conversion —
each i32 coordinate cast to f32, then divided by the f32 scale factor, both
steps correctly rounded — which equals the exact quotient physical/scale
precisely when the roundings are exact; in particular, with scale factor 2 and
raw X=100, Y=50, a sync with no key event emits `PointerMoved (50, 25)`
exactly. -/
theorem c8_coordinate_scaling :
    (∀ (c c' : Collector) (e : EventSummary) (w : WindowEvent),
      c.push e = (some w, c') →
      eventPosition w
        = (from_physical_coord c.last_position.1 c.scale_factor,
           from_physical_coord c.last_position.2 c.scale_factor)) ∧
    ((Collector.new 2 (0, 0)).pushAll
        [EventSummary.absoluteAxis AbsoluteAxisCode.ABS_X 100,
         EventSummary.absoluteAxis AbsoluteAxisCode.ABS_Y 50,
         EventSummary.synchronization]).1
      = [WindowEvent.pointerMoved (50, 25)] := by
  constructor
  · intro c c' e w h
    have hfst : (c.push e).1 = some w := by rw [h]
    have hsync : e = EventSummary.synchronization := by
      by_contra hne
      rw [push_fst_eq_none c e (isSync_false_of_ne e hne)] at hfst
      exact Option.noConfusion hfst
    subst hsync
    rw [push_sync_fst] at hfst
    have hw := Option.some.inj hfst
    rw [← hw]
    split_ifs <;> rfl
  · have h100 : from_physical_coord 100 2 = 50 := by
      show q24 (from_physical_core 100 (2 : ℚ).num (2 : ℚ).den) = 50
      rw [show ((2 : ℚ).num) = 2 from by norm_num, show ((2 : ℚ).den) = 1 from by norm_num,
        show from_physical_core 100 2 1 = (13107200, -18) from by decide]
      simp [q24]
      norm_num
    have h50 : from_physical_coord 50 2 = 25 := by
      show q24 (from_physical_core 50 (2 : ℚ).num (2 : ℚ).den) = 25
      rw [show ((2 : ℚ).num) = 2 from by norm_num, show ((2 : ℚ).den) = 1 from by norm_num,
        show from_physical_core 50 2 1 = (13107200, -19) from by decide]
      simp [q24]
      norm_num
    simp [pushAll_cons, pushAll_nil, push_abs_x, push_abs_y, push_sync_fst, Collector.new,
      Collector.last_logical_position, h100, h50]

/-- Witness for C8 amended at the scenario-E collector (position (100, 50),
scale factor 2). -/
theorem c8_coordinate_scaling_witness :
    eventPosition (WindowEvent.pointerMoved
        ((Collector.mk (100, 50) 2 ButtonChange.none).last_logical_position))
      = (from_physical_coord 100 2, from_physical_coord 50 2) :=
  c8_coordinate_scaling.1 (Collector.mk (100, 50) 2 ButtonChange.none)
    (Collector.mk (100, 50) 2 ButtonChange.none) EventSummary.synchronization
    (WindowEvent.pointerMoved
      ((Collector.mk (100, 50) 2 ButtonChange.none).last_logical_position)) rfl

/-- C9 counterexample: on an underlying fetch error the synchronous
`fetch_events` hits its `.unwrap()` and panics — the outcome is an abort, not
an error value propagated to the caller (the function's return type has no
error channel at all). -/
theorem c9_counterexample :
    SlintEventsWrapper.fetch_events 1 (0, 0) (Except.error ⟨5⟩)
      = SyncFetchResult.panicked ⟨5⟩ ∧
    (SlintEventsWrapper.fetch_events 1 (0, 0) (Except.error ⟨5⟩)).isPanicked = true :=
  ⟨rfl, rfl⟩

/-- C9 amended: the asynchronous `next_event` surfaces an underlying fetch
error by returning that error from the call (also when non-sync raw events
precede it in the source, none of which emit), without retry; the synchronous
`fetch_events`, by contrast, is fatal by panic: its `.unwrap()` aborts instead
of returning the error value. -/
theorem c9_error_propagation (c : Collector) (e : IoError) (pre : List EventSummary)
    (rest : List (Except IoError EventSummary)) (scale_factor : ℚ) (pos : Int × Int)
    (hpre : ∀ ev ∈ pre, ev ≠ EventSummary.synchronization) :
    (EventStream.next_event c (pre.map Except.ok ++ Except.error e :: rest)
      = AsyncFetchResult.err e) ∧
    (SlintEventsWrapper.fetch_events scale_factor pos (Except.error e)
      = SyncFetchResult.panicked e) := by
  have aux : ∀ (p : List EventSummary) (c₀ : Collector),
      (∀ ev ∈ p, ev ≠ EventSummary.synchronization) →
      EventStream.next_event c₀ (p.map Except.ok ++ Except.error e :: rest)
        = AsyncFetchResult.err e := by
    intro p
    induction p with
    | nil => intro c₀ _; rfl
    | cons ev t ih =>
      intro c₀ hp
      rcases hq : c₀.push ev with ⟨o, c₂⟩
      have ho : o = Option.none := by
        have hnone := push_fst_eq_none c₀ ev
          (isSync_false_of_ne ev (hp ev (List.mem_cons_self ev t)))
        rw [hq] at hnone
        exact hnone
      subst ho
      have hstep : EventStream.next_event c₀ ((ev :: t).map Except.ok ++ Except.error e :: rest)
          = EventStream.next_event c₂ (t.map Except.ok ++ Except.error e :: rest) := by
        simp [EventStream.next_event, hq]
      rw [hstep]
      exact ih c₂ (fun x hx => hp x (List.mem_cons_of_mem ev hx))
  exact ⟨aux pre c hpre, rfl⟩

/-- Witness for C9 amended: an axis event then a fetch error — the async call
returns the error; the sync fetch panics on the same error. -/
theorem c9_error_propagation_witness :
    (EventStream.next_event (Collector.new 1 (0, 0))
        [Except.ok (EventSummary.absoluteAxis AbsoluteAxisCode.ABS_X 3), Except.error ⟨7⟩]
      = AsyncFetchResult.err ⟨7⟩) ∧
    (SlintEventsWrapper.fetch_events 1 (0, 0) (Except.error ⟨7⟩)
      = SyncFetchResult.panicked ⟨7⟩) :=
  c9_error_propagation (Collector.new 1 (0, 0)) ⟨7⟩
    [EventSummary.absoluteAxis AbsoluteAxisCode.ABS_X 3] [] 1 (0, 0) (by decide)

end SlintEvdev
